import Mathlib

/-!
Shallow embedding of the `alx-backend-storage` repository
(`0x02-redis_basic/exercise.py` and `0x02-redis_basic/web.py`).

The Redis backend is modelled as explicit state passed through every
operation.  Byte strings are modelled by their decoded text (`String`);
the repository only ever stores UTF-8 decodable payloads, decimal
integer text, and textual `repr`s, so no claim depends on undecodable
byte sequences.  Integer values travel through the backend as their
decimal text, exactly as in Redis, so the embedding carries a decimal
printer (`natRepr`/`intRepr`), the strict integer parser used by Redis
`INCR` (`redisParseInt`) and the parser of Python's `int()`
(`pyParseInt`).
-/

/-- ASCII decimal digit test ('0'..'9'). -/
def isDigit (c : Char) : Bool := 48 ≤ c.toNat && c.toNat ≤ 57

/-- Whitespace stripped by Python's `int()` (ASCII subset). -/
def pySpace (c : Char) : Bool :=
  c = ' ' || c = '\t' || c = '\n' || c = '\r' || c = '\x0b' || c = '\x0c'

/-- Numeric value of a digit character. -/
def digitVal (c : Char) : Nat := c.toNat - 48

/-- Character for a digit value below ten. -/
def digitChar (d : Nat) : Char :=
  match d with
  | 0 => '0' | 1 => '1' | 2 => '2' | 3 => '3' | 4 => '4'
  | 5 => '5' | 6 => '6' | 7 => '7' | 8 => '8' | _ => '9'

/-- Decimal digits of `n`, most significant first; `fuel` bounds the
recursion depth (`n ≤ fuel` suffices). -/
def natReprAux : Nat → Nat → List Char
  | _, 0 => []
  | 0, _ + 1 => []
  | fuel + 1, n + 1 => natReprAux fuel ((n + 1) / 10) ++ [digitChar ((n + 1) % 10)]

/-- Decimal digit characters of `n` (empty for zero). -/
def digitChars (n : Nat) : List Char := natReprAux n n

/-- Decimal rendering of a natural number, as Redis and Python print it. -/
def natRepr (n : Nat) : String := if n = 0 then "0" else String.mk (digitChars n)

/-- Decimal rendering of an integer. -/
def intRepr : Int → String
  | Int.ofNat m => natRepr m
  | Int.negSucc m => "-" ++ natRepr (m + 1)

/-- Digit-run consumer of the Redis integer parser: accumulates the
value of a pure digit run, rejecting any other character. -/
def redisDigitsVal (acc : Nat) : List Char → Option Nat
  | [] => some acc
  | c :: rest => if isDigit c then redisDigitsVal (10 * acc + digitVal c) rest else none

/-- Integer parser used by Redis `INCR`: optional minus sign followed by
a nonempty run of digits, nothing else. -/
def redisParseInt (s : String) : Option Int :=
  match s.toList with
  | [] => none
  | c :: rest =>
    if c = '-' then
      match rest with
      | [] => none
      | c2 :: r2 =>
        if isDigit c2 then (redisDigitsVal (digitVal c2) r2).map (fun n => -(n : Int))
        else none
    else if isDigit c then (redisDigitsVal (digitVal c) rest).map (fun n => (n : Int))
    else none

/-- Tail of a Python integer literal: digits, with single underscores
allowed between digits only. -/
def pyDigitsTail (acc : Nat) : List Char → Option Nat
  | [] => some acc
  | c :: rest =>
    if c = '_' then
      match rest with
      | [] => none
      | c2 :: r2 =>
        if isDigit c2 then pyDigitsTail (10 * acc + digitVal c2) r2 else none
    else if isDigit c then pyDigitsTail (10 * acc + digitVal c) rest else none

/-- Unsigned core of a Python integer literal: a leading digit then
`pyDigitsTail`. -/
def pyIntCore : List Char → Option Nat
  | [] => none
  | c :: rest => if isDigit c then pyDigitsTail (digitVal c) rest else none

/-- Strip leading and trailing Python whitespace from a character list. -/
def stripWs (cs : List Char) : List Char :=
  ((cs.dropWhile pySpace).reverse.dropWhile pySpace).reverse

/-- Parser of Python's `int()` applied to text: optional surrounding
whitespace, optional sign, then a digit run with optional underscores. -/
def pyParseInt (s : String) : Option Int :=
  match stripWs s.toList with
  | [] => none
  | c :: rest =>
    if c = '+' then (pyIntCore rest).map (fun n => (n : Int))
    else if c = '-' then (pyIntCore rest).map (fun n => -(n : Int))
    else (pyIntCore (c :: rest)).map (fun n => (n : Int))

theorem natReprAux_zero (f : Nat) : natReprAux f 0 = [] := by cases f <;> rfl

theorem natReprAux_succ (f n : Nat) :
    natReprAux (f + 1) (n + 1) = natReprAux f ((n + 1) / 10) ++ [digitChar ((n + 1) % 10)] := rfl

theorem natReprAux_fuel (n : Nat) :
    ∀ f₁ f₂, n ≤ f₁ → n ≤ f₂ → natReprAux f₁ n = natReprAux f₂ n := by
  induction n using Nat.strong_induction_on with
  | _ n ih =>
    intro f₁ f₂ h₁ h₂
    cases n with
    | zero => rw [natReprAux_zero, natReprAux_zero]
    | succ m =>
      cases f₁ with
      | zero => omega
      | succ g₁ =>
        cases f₂ with
        | zero => omega
        | succ g₂ =>
          rw [natReprAux_succ, natReprAux_succ]
          have hd : (m + 1) / 10 < m + 1 := Nat.div_lt_self (Nat.succ_pos m) (by omega)
          congr 1
          exact ih _ hd _ _ (by omega) (by omega)

theorem digitChars_zero : digitChars 0 = [] := rfl

theorem digitChars_succ (n : Nat) (h : n ≠ 0) :
    digitChars n = digitChars (n / 10) ++ [digitChar (n % 10)] := by
  obtain ⟨m, rfl⟩ : ∃ m, n = m + 1 := ⟨n - 1, by omega⟩
  show natReprAux (m + 1) (m + 1) = _
  rw [natReprAux_succ]
  have hd : (m + 1) / 10 < m + 1 := Nat.div_lt_self (Nat.succ_pos m) (by omega)
  congr 1
  exact natReprAux_fuel _ _ _ (by omega) (le_refl _)

theorem isDigit_digitChar (d : Nat) : isDigit (digitChar d) = true := by
  match d with
  | 0 | 1 | 2 | 3 | 4 | 5 | 6 | 7 | 8 => decide
  | n + 9 => exact (by decide : isDigit '9' = true)

theorem digitVal_digitChar (d : Nat) (h : d < 10) : digitVal (digitChar d) = d := by
  interval_cases d <;> decide

theorem digitChars_digits (n : Nat) : ∀ c ∈ digitChars n, isDigit c = true := by
  induction n using Nat.strong_induction_on with
  | _ n ih =>
    by_cases h : n = 0
    · subst h
      intro c hc
      simp [digitChars_zero] at hc
    · rw [digitChars_succ n h]
      intro c hc
      rcases List.mem_append.mp hc with h1 | h2
      · exact ih (n / 10) (Nat.div_lt_self (Nat.pos_of_ne_zero h) (by omega)) c h1
      · have hc2 : c = digitChar (n % 10) := by simpa using h2
        subst hc2
        exact isDigit_digitChar _

/-- One step of decimal accumulation. -/
def chVal (a : Nat) (c : Char) : Nat := 10 * a + digitVal c

theorem foldl_digitChars (n : Nat) : List.foldl chVal 0 (digitChars n) = n := by
  induction n using Nat.strong_induction_on with
  | _ n ih =>
    by_cases h : n = 0
    · subst h; rfl
    · rw [digitChars_succ n h, List.foldl_append]
      have hd : n / 10 < n := Nat.div_lt_self (Nat.pos_of_ne_zero h) (by omega)
      rw [ih _ hd]
      show chVal (n / 10) (digitChar (n % 10)) = n
      unfold chVal
      rw [digitVal_digitChar _ (Nat.mod_lt _ (by omega))]
      omega

theorem redisDigitsVal_digits (ds : List Char) (hds : ∀ c ∈ ds, isDigit c = true) :
    ∀ acc, redisDigitsVal acc ds = some (List.foldl chVal acc ds) := by
  induction ds with
  | nil => intro acc; rfl
  | cons c rest ih =>
    intro acc
    have hc : isDigit c = true := hds c (by simp)
    have ihr := ih (fun c' h' => hds c' (by simp [h'])) (10 * acc + digitVal c)
    simp [redisDigitsVal, hc, ihr, List.foldl_cons, chVal]

theorem isDigit_ne_minus (c : Char) (h : isDigit c = true) : c ≠ '-' := by
  intro he
  rw [he] at h
  exact absurd h (by decide)

theorem redisParseInt_natRepr (n : Nat) : redisParseInt (natRepr n) = some (n : Int) := by
  by_cases h : n = 0
  · subst h; decide
  · have hmk : natRepr n = String.mk (digitChars n) := by rw [natRepr]; simp [h]
    have hne : digitChars n ≠ [] := by
      rw [digitChars_succ n h]; simp
    obtain ⟨c, rest, hcr⟩ : ∃ c rest, digitChars n = c :: rest := by
      cases hd : digitChars n with
      | nil => exact absurd hd hne
      | cons c rest => exact ⟨c, rest, rfl⟩
    have hdig := digitChars_digits n
    have hc : isDigit c = true := hdig c (by rw [hcr]; simp)
    have hrest : ∀ c' ∈ rest, isDigit c' = true := fun c' h' => hdig c' (by rw [hcr]; simp [h'])
    have hcm : c ≠ '-' := isDigit_ne_minus c hc
    have hval : List.foldl chVal (digitVal c) rest = n := by
      have hf := foldl_digitChars n
      rw [hcr] at hf
      simpa [List.foldl_cons, chVal] using hf
    rw [hmk]
    unfold redisParseInt
    have htl : (String.mk (digitChars n)).toList = c :: rest := by rw [← hcr]; rfl
    rw [htl]
    simp [hcm, hc, redisDigitsVal_digits rest hrest, hval]

theorem redisParseInt_intRepr (i : Int) : redisParseInt (intRepr i) = some i := by
  match i with
  | Int.ofNat m => simpa using redisParseInt_natRepr m
  | Int.negSucc m =>
    have h : (m + 1 : Nat) ≠ 0 := by omega
    have hmk : natRepr (m + 1) = String.mk (digitChars (m + 1)) := by rw [natRepr]; simp
    have hne : digitChars (m + 1) ≠ [] := by
      rw [digitChars_succ _ h]; simp
    obtain ⟨c, rest, hcr⟩ : ∃ c rest, digitChars (m + 1) = c :: rest := by
      cases hd : digitChars (m + 1) with
      | nil => exact absurd hd hne
      | cons c rest => exact ⟨c, rest, rfl⟩
    have hdig := digitChars_digits (m + 1)
    have hc : isDigit c = true := hdig c (by rw [hcr]; simp)
    have hrest : ∀ c' ∈ rest, isDigit c' = true := fun c' h' => hdig c' (by rw [hcr]; simp [h'])
    have hval : List.foldl chVal (digitVal c) rest = m + 1 := by
      have hf := foldl_digitChars (m + 1)
      rw [hcr] at hf
      simpa [List.foldl_cons, chVal] using hf
    show redisParseInt ("-" ++ natRepr (m + 1)) = some (Int.negSucc m)
    rw [hmk]
    unfold redisParseInt
    have htl : ("-" ++ String.mk (digitChars (m + 1))).toList = '-' :: c :: rest := by
      rw [← hcr]; rfl
    rw [htl]
    simp [hc, redisDigitsVal_digits rest hrest, hval, Int.negSucc_eq]

/-!
Embedding of `0x02-redis_basic/exercise.py`.

The Redis keyspace is modelled with string values and list values kept
in separate maps; the code never stores both types under one key (the
freshness hypotheses on generated keys in the theorems below are
exactly what real Redis needs for the calls to succeed, since `SET` on
a history key or `INCR` on a non-integer value would fault).
-/

/-- Pointwise update of a key-value map. -/
def updFn (f : String → Option String) (k v : String) : String → Option String :=
  fun k2 => if k2 = k then some v else f k2

/-- State of the external Redis collaborator used by `Cache`. -/
structure RedisState where
  kv : String → Option String
  lists : String → List String

/-- Redis state right after `FLUSHDB`. -/
def RedisState.empty : RedisState := ⟨fun _ => none, fun _ => []⟩

/-- Redis `SET key value`. -/
def rset (r : RedisState) (k v : String) : RedisState := ⟨updFn r.kv k v, r.lists⟩

/-- Redis `GET key`. -/
def rget (r : RedisState) (k : String) : Option String := r.kv k

/-- Redis `INCR key`: absent keys count from 0; the stored decimal text
is parsed, incremented and written back.  (Real Redis faults on a
non-integer value; the code only ever increments keys holding decimal
text, which the theorems' hypotheses guarantee, so the embedding
totalises the unreachable branch with 0.) -/
def rincr (r : RedisState) (k : String) : RedisState :=
  let n : Int :=
    match r.kv k with
    | none => 0
    | some v => (redisParseInt v).getD 0
  ⟨updFn r.kv k (intRepr (n + 1)), r.lists⟩

/-- Redis `RPUSH key value`. -/
def rrpush (r : RedisState) (k v : String) : RedisState :=
  ⟨r.kv, fun k2 => if k2 = k then r.lists k ++ [v] else r.lists k2⟩

/-- Redis `LRANGE key 0 -1`. -/
def rlrangeAll (r : RedisState) (k : String) : List String := r.lists k

/-- A value of one of the shapes `Cache.store` accepts
(`Union[str, bytes, int, float]`).  Binary data is modelled by its
decoded text and a float by its textual `repr`. -/
inductive PyVal where
  | str (s : String)
  | bytes (b : String)
  | int (n : Int)
  | float (r : String)

/-- Byte representation the Redis client stores for a value
(UTF-8 text for `str`, the bytes themselves, decimal text for `int`,
the `repr` text for `float`). -/
def encodeVal : PyVal → String
  | PyVal.str s => s
  | PyVal.bytes b => b
  | PyVal.int n => intRepr n
  | PyVal.float r => r

/-- Python `repr` of a value (string escaping is not modelled; the
strings exercised here contain no quotes or escapes). -/
def pyRepr : PyVal → String
  | PyVal.str s => "'" ++ s ++ "'"
  | PyVal.bytes b => "b'" ++ b ++ "'"
  | PyVal.int n => intRepr n
  | PyVal.float r => r

/-- Python `str(args)` for the one-element positional tuple `(data,)`. -/
def strArgs (v : PyVal) : String := "(" ++ pyRepr v ++ ",)"

/-- Backend commands issued during a `Cache` method call, in order. -/
inductive CEvent where
  | rpush (key value : String)
  | incr (key : String)
  | set (key value : String)
deriving DecidableEq, Repr

/-- State of a `Cache` instance: its Redis connection plus the stream
of keys `str(uuid.uuid4())` will generate (`supply nextIdx` is the next
fresh key). -/
structure CacheState where
  redis : RedisState
  supply : Nat → String
  nextIdx : Nat

/-- A `Cache` method: arguments and state in, result, state and the
trace of backend commands out. -/
def CMethod (α β : Type) : Type := α → CacheState → β × CacheState × List CEvent

/-- Decorator `count_calls`: increments the counter stored under the
method's qualified name, then runs the method. -/
def count_calls (qualname : String) (m : CMethod α β) : CMethod α β := fun a s =>
  let s1 : CacheState := { s with redis := rincr s.redis qualname }
  let r := m a s1
  (r.1, r.2.1, CEvent.incr qualname :: r.2.2)

/-- Decorator `call_history`: `RPUSH`es the textual arguments to
`<qualname>:inputs`, runs the method, then `RPUSH`es the textual result
to `<qualname>:outputs`.  The textual renderings (`str(args)`,
`str(output)`) are passed explicitly. -/
def call_history (qualname : String) (reprA : α → String) (reprB : β → String)
    (m : CMethod α β) : CMethod α β := fun a s =>
  let ikey := qualname ++ ":inputs"
  let okey := qualname ++ ":outputs"
  let s1 : CacheState := { s with redis := rrpush s.redis ikey (reprA a) }
  let r := m a s1
  let s2 : CacheState := { r.2.1 with redis := rrpush r.2.1.redis okey (reprB r.1) }
  (r.1, s2, CEvent.rpush ikey (reprA a) :: r.2.2 ++ [CEvent.rpush okey (reprB r.1)])

/-- Body of `Cache.store`: generate a fresh key, `SET` the value under
it, return the key. -/
def store_base : CMethod PyVal String := fun v s =>
  let key := s.supply s.nextIdx
  (key, { s with redis := rset s.redis key (encodeVal v), nextIdx := s.nextIdx + 1 },
    [CEvent.set key (encodeVal v)])

/-- `Cache.store`, with its decorators applied in source order
(`@call_history` outside `@count_calls`). -/
def Cache.store : CMethod PyVal String :=
  call_history "Cache.store" strArgs (fun k => k) (count_calls "Cache.store" store_base)

/-- `Cache.__init__`: fresh connection, `FLUSHDB`. -/
def Cache.init (supply : Nat → String) : CacheState :=
  { redis := RedisState.empty, supply := supply, nextIdx := 0 }

/-- Result of `Cache.get`: key absent (`None`), raw bytes, or the
conversion function's result. -/
inductive GetResult (γ : Type) where
  | notFound
  | raw (b : String)
  | converted (v : γ)
deriving DecidableEq, Repr

/-- `Cache.get`: look the key up; on a miss return `None`; otherwise
apply the optional conversion function, whose failure propagates.  The
second component counts invocations of the conversion function. -/
def Cache.get (s : CacheState) (key : String)
    (fn : Option (String → Except String γ)) : Except String (GetResult γ) × Nat :=
  match rget s.redis key with
  | none => (Except.ok GetResult.notFound, 0)
  | some d =>
    match fn with
    | none => (Except.ok (GetResult.raw d), 0)
    | some f =>
      match f d with
      | Except.ok v => (Except.ok (GetResult.converted v), 1)
      | Except.error e => (Except.error e, 1)

/-- Conversion function of `Cache.get_str` (UTF-8 decode; the text
model makes it the identity). -/
def strFn : String → Except String String := fun d => Except.ok d

/-- Error message of Python's `int()` on malformed text. -/
def invalidIntMsg (d : String) : String :=
  "invalid literal for int() with base 10: " ++ d

/-- Conversion function of `Cache.get_int`: Python `int(d)`, raising on
text that is not an integer literal. -/
def intFn : String → Except String Int := fun d =>
  match pyParseInt d with
  | some n => Except.ok n
  | none => Except.error (invalidIntMsg d)

/-- `Cache.get_str`. -/
def Cache.get_str (s : CacheState) (key : String) : Except String (GetResult String) × Nat :=
  Cache.get s key (some strFn)

/-- `Cache.get_int`. -/
def Cache.get_int (s : CacheState) (key : String) : Except String (GetResult Int) × Nat :=
  Cache.get s key (some intFn)

/-- `Cache.replay`: over its own connection to the same backend, read
the counter (`int(call_count or 0)`), read both history lists, and
render the transcript.  Returns the printed lines and the (unchanged)
backend state; a malformed counter value makes `int()` raise. -/
def Cache.replay (r : RedisState) (qualname : String) :
    Except String (List String) × RedisState :=
  let cc := rget r qualname
  let count : Option Int :=
    match cc with
    | none => some 0
    | some v => if v = "" then some 0 else pyParseInt v
  match count with
  | none => (Except.error (invalidIntMsg (cc.getD "")), r)
  | some c =>
    let header := qualname ++ " was called " ++ intRepr c ++ " times:"
    let inputs := rlrangeAll r (qualname ++ ":inputs")
    let outputs := rlrangeAll r (qualname ++ ":outputs")
    let lines := (inputs.zip outputs).map
      (fun p => qualname ++ "(*" ++ p.1 ++ ") -> " ++ p.2)
    (Except.ok (header :: lines), r)

/-- `n` successive `Cache.store` calls, collecting the returned keys. -/
def storeN : List PyVal → CacheState → List String × CacheState
  | [], s => ([], s)
  | v :: rest, s =>
    let r := Cache.store v s
    let r2 := storeN rest r.2.1
    (r.1 :: r2.1, r2.2)

/-- The counter key holds a value `INCR` accepts: absent, or canonical
integer text.  This is what real Redis needs for `store` not to fault. -/
def RIncrOk (r : RedisState) (k : String) : Prop :=
  r.kv k = none ∨ ∃ n : Int, r.kv k = some (intRepr n)

example :
    (Cache.store (PyVal.str "foo") (Cache.init (fun i => "k" ++ natRepr i))).1 = "k0" := by decide
example :
    (Cache.store (PyVal.str "foo") (Cache.init (fun i => "k" ++ natRepr i))).2.2 =
      [CEvent.rpush "Cache.store:inputs" "('foo',)", CEvent.incr "Cache.store",
       CEvent.set "k0" "foo", CEvent.rpush "Cache.store:outputs" "k0"] := by decide

/-!
Embedding of `0x02-redis_basic/web.py`.

The module-level Redis connection is a keyspace whose entries carry an
optional absolute expiry time; every operation takes the current time
`now` explicitly, and `SETEX` stores expiry `now + ttl`.  The HTTP
client is a parameter `fetch` returning the body text or an error.
Each call also produces the ordered trace of backend commands and
fetches it performed.
-/

/-- State of the module-level Redis connection of `web.py`: value and
optional absolute expiry per key. -/
structure WebState where
  kv : String → Option (String × Option Nat)

/-- Empty web-side Redis state. -/
def WebState.empty : WebState := ⟨fun _ => none⟩

/-- The entry alive at time `now` under `k`, if any. -/
def wentry (s : WebState) (now : Nat) (k : String) : Option (String × Option Nat) :=
  match s.kv k with
  | none => none
  | some (v, none) => some (v, none)
  | some (v, some e) => if now < e then some (v, some e) else none

/-- Redis `GET` at time `now` (expired entries are absent). -/
def wget (s : WebState) (now : Nat) (k : String) : Option String :=
  (wentry s now k).map (fun p => p.1)

/-- Redis `INCR` at time `now`: an absent or expired key counts from 0
and gets no expiry; a live key keeps its expiry.  (As in `rincr`, the
non-integer branch real Redis faults on is totalised with 0; the
counter keys here only ever hold decimal text.) -/
def wincr (s : WebState) (now : Nat) (k : String) : WebState :=
  match wentry s now k with
  | some (v, e) =>
    ⟨fun k2 => if k2 = k then some (intRepr ((redisParseInt v).getD 0 + 1), e) else s.kv k2⟩
  | none => ⟨fun k2 => if k2 = k then some (intRepr 1, none) else s.kv k2⟩

/-- Redis `SETEX k ttl v` at time `now`. -/
def wsetex (s : WebState) (now : Nat) (k : String) (ttl : Nat) (v : String) : WebState :=
  ⟨fun k2 => if k2 = k then some (v, some (now + ttl)) else s.kv k2⟩

/-- Backend commands and fetches issued during a `get_page` call, in
order. -/
inductive WebEvent where
  | incrCount (key : String)
  | fetchCall (url : String)
  | setexCmd (key : String) (ttl : Nat) (value : String)
deriving DecidableEq, Repr

/-- A `web.py` page operation: URL and state in; body or propagated
failure, state and command trace out. -/
def WebMethod : Type := String → WebState → Except String String × WebState × List WebEvent

/-- Decorator `count_url_access`: `INCR` `count:<url>`, then run the
wrapped operation. -/
def count_url_access (now : Nat) (m : WebMethod) : WebMethod := fun url s =>
  let s1 := wincr s now ("count:" ++ url)
  let r := m url s1
  (r.1, r.2.1, WebEvent.incrCount ("count:" ++ url) :: r.2.2)

/-- Decorator `cache_page(expiration)`: `GET` `cache:<url>`; a truthy
(present and non-empty) value is returned at once; otherwise the
wrapped operation runs and, on success, its result is stored with
`SETEX` before being returned.  A failure of the wrapped operation
propagates with no cache write. -/
def cache_page (expiration now : Nat) (m : WebMethod) : WebMethod := fun url s =>
  let cacheKey := "cache:" ++ url
  let cached := (wget s now cacheKey).getD ""
  if cached ≠ "" then (Except.ok cached, s, [])
  else
    let r := m url s
    match r.1 with
    | Except.error e => (Except.error e, r.2.1, r.2.2)
    | Except.ok result =>
      (Except.ok result, wsetex r.2.1 now cacheKey expiration result,
        r.2.2 ++ [WebEvent.setexCmd cacheKey expiration result])

/-- `get_page`, with its decorators applied in source order
(`@cache_page(expiration=10)` outside `@count_url_access`); the body is
`requests.get(url).text`, modelled by the `fetch` parameter. -/
def get_page (fetch : String → Except String String) (now : Nat) : WebMethod :=
  cache_page 10 now (count_url_access now
    (fun url s => (fetch url, s, [WebEvent.fetchCall url])))

example :
    (get_page (fun _ => Except.ok "hello") 0 "http://x/a" WebState.empty).2.2 =
      [WebEvent.incrCount "count:http://x/a", WebEvent.fetchCall "http://x/a",
       WebEvent.setexCmd "cache:http://x/a" 10 "hello"] := by decide
example :
    (get_page (fun _ => Except.ok "other") 5 "http://x/a"
      (get_page (fun _ => Except.ok "hello") 0 "http://x/a" WebState.empty).2.1).1 =
    Except.ok "hello" := rfl
example :
    (get_page (fun _ => Except.ok "other") 5 "http://x/a"
      (get_page (fun _ => Except.ok "hello") 0 "http://x/a" WebState.empty).2.1).2.2 =
    [] := by decide

/-! Step lemmas for a single `Cache.store` call. -/

theorem store_result (v : PyVal) (s : CacheState) :
    (Cache.store v s).1 = s.supply s.nextIdx := rfl

theorem store_supply (v : PyVal) (s : CacheState) :
    (Cache.store v s).2.1.supply = s.supply := rfl

theorem store_nextIdx (v : PyVal) (s : CacheState) :
    (Cache.store v s).2.1.nextIdx = s.nextIdx + 1 := rfl

theorem store_kv (v : PyVal) (s : CacheState) :
    (Cache.store v s).2.1.redis.kv =
      updFn (rincr s.redis "Cache.store").kv (s.supply s.nextIdx) (encodeVal v) := rfl

theorem store_kv_at_key (v : PyVal) (s : CacheState) :
    (Cache.store v s).2.1.redis.kv (s.supply s.nextIdx) = some (encodeVal v) := by
  rw [store_kv]
  simp [updFn]

/-- Counter values are compared through how `GET` reads them: the
decimal text of `c`, or absent when zero calls have been counted. -/
def CtrIs (r : RedisState) (k : String) (c : Int) : Prop :=
  r.kv k = some (intRepr c) ∨ (c = 0 ∧ r.kv k = none)

theorem store_kv_counter (v : PyVal) (s : CacheState) (c : Int)
    (hc : CtrIs s.redis "Cache.store" c)
    (hk : s.supply s.nextIdx ≠ "Cache.store") :
    (Cache.store v s).2.1.redis.kv "Cache.store" = some (intRepr (c + 1)) := by
  rw [store_kv]
  unfold updFn
  rw [if_neg (Ne.symm hk)]
  rcases hc with hc | ⟨hc0, hc⟩
  · simp [rincr, updFn, hc, redisParseInt_intRepr]
  · subst hc0
    simp [rincr, updFn, hc]

theorem store_lists_in (v : PyVal) (s : CacheState) :
    (Cache.store v s).2.1.redis.lists "Cache.store:inputs" =
      s.redis.lists "Cache.store:inputs" ++ [strArgs v] := by
  show (rrpush _ ("Cache.store" ++ ":outputs") _).lists "Cache.store:inputs" = _
  simp [rrpush, rset, rincr, count_calls, store_base]

theorem store_lists_out (v : PyVal) (s : CacheState) :
    (Cache.store v s).2.1.redis.lists "Cache.store:outputs" =
      s.redis.lists "Cache.store:outputs" ++ [s.supply s.nextIdx] := by
  show (rrpush _ ("Cache.store" ++ ":outputs") _).lists "Cache.store:outputs" = _
  simp [rrpush, rset, rincr, count_calls, store_base]

theorem store_trace (v : PyVal) (s : CacheState) :
    (Cache.store v s).2.2 =
      [CEvent.rpush "Cache.store:inputs" (strArgs v),
       CEvent.incr "Cache.store",
       CEvent.set (s.supply s.nextIdx) (encodeVal v),
       CEvent.rpush "Cache.store:outputs" (s.supply s.nextIdx)] := rfl

/-- C3: for every accepted value, storing it and retrieving the
returned key with no conversion function yields the backend-stored byte
representation of the value, unchanged. -/
theorem C3_store_get_roundtrip (v : PyVal) (s : CacheState)
    (_h : RIncrOk s.redis "Cache.store") :
    Cache.get (Cache.store v s).2.1 (Cache.store v s).1
      (none : Option (String → Except String String)) =
    (Except.ok (GetResult.raw (encodeVal v)), 0) := by
  rw [store_result]
  simp [Cache.get, rget, store_kv_at_key]

/-- Witness for C3 at a concrete state and value. -/
theorem C3_store_get_roundtrip_witness :
    RIncrOk (Cache.init (fun _ => "k0")).redis "Cache.store" ∧
    Cache.get (Cache.store (PyVal.str "foo") (Cache.init (fun _ => "k0"))).2.1
      (Cache.store (PyVal.str "foo") (Cache.init (fun _ => "k0"))).1
      (none : Option (String → Except String String)) =
    (Except.ok (GetResult.raw (encodeVal (PyVal.str "foo"))), 0) :=
  ⟨Or.inl rfl, C3_store_get_roundtrip (PyVal.str "foo") (Cache.init (fun _ => "k0")) (Or.inl rfl)⟩

/-- C5: retrieving an absent key returns the explicit not-found result
under any conversion function, and the conversion function is never
invoked (the invocation count is 0). -/
theorem C5_get_absent_key (γ : Type) (s : CacheState) (key : String)
    (fn : Option (String → Except String γ)) (h : s.redis.kv key = none) :
    Cache.get s key fn = (Except.ok GetResult.notFound, 0) := by
  simp [Cache.get, rget, h]

/-- Witness for C5 at a concrete state, key and conversion function. -/
theorem C5_get_absent_key_witness :
    (Cache.init (fun _ => "k0")).redis.kv "missing" = none ∧
    Cache.get (Cache.init (fun _ => "k0")) "missing" (some intFn) =
      (Except.ok GetResult.notFound, 0) :=
  ⟨rfl, C5_get_absent_key Int (Cache.init (fun _ => "k0")) "missing" (some intFn) rfl⟩

/-- C6: retrieving a present key whose stored bytes are not integer
text through `get_int` propagates the conversion failure instead of
returning a value. -/
theorem C6_get_int_malformed (s : CacheState) (key d : String)
    (h1 : s.redis.kv key = some d) (h2 : pyParseInt d = none) :
    (Cache.get_int s key).1 = Except.error (invalidIntMsg d) := by
  simp [Cache.get_int, Cache.get, rget, h1, intFn, h2]

/-- Witness for C6 at a concrete state holding non-numeric text. -/
theorem C6_get_int_malformed_witness :
    (rset RedisState.empty "k" "abc").kv "k" = some "abc" ∧ pyParseInt "abc" = none ∧
    (Cache.get_int ⟨rset RedisState.empty "k" "abc", fun _ => "k0", 0⟩ "k").1 =
      Except.error (invalidIntMsg "abc") :=
  ⟨rfl, by decide,
    C6_get_int_malformed ⟨rset RedisState.empty "k" "abc", fun _ => "k0", 0⟩ "k" "abc" rfl (by decide)⟩

/-- C9: a `store` call issues its backend effects in exactly the order
append-arguments-to-inputs, increment-counter, write-value-under-key,
append-key-to-outputs, and returns the freshly generated key. -/
theorem C9_store_effect_order (v : PyVal) (s : CacheState)
    (_h : RIncrOk s.redis "Cache.store") :
    (Cache.store v s).2.2 =
      [CEvent.rpush "Cache.store:inputs" (strArgs v),
       CEvent.incr "Cache.store",
       CEvent.set (s.supply s.nextIdx) (encodeVal v),
       CEvent.rpush "Cache.store:outputs" (s.supply s.nextIdx)] ∧
    (Cache.store v s).1 = s.supply s.nextIdx :=
  ⟨store_trace v s, store_result v s⟩

/-- Witness for C9 at a concrete state and value. -/
theorem C9_store_effect_order_witness :
    RIncrOk (Cache.init (fun i => "k" ++ natRepr i)).redis "Cache.store" ∧
    ((Cache.store (PyVal.str "foo") (Cache.init (fun i => "k" ++ natRepr i))).2.2 =
      [CEvent.rpush "Cache.store:inputs" (strArgs (PyVal.str "foo")),
       CEvent.incr "Cache.store",
       CEvent.set "k0" (encodeVal (PyVal.str "foo")),
       CEvent.rpush "Cache.store:outputs" "k0"] ∧
    (Cache.store (PyVal.str "foo") (Cache.init (fun i => "k" ++ natRepr i))).1 = "k0") :=
  ⟨Or.inl rfl,
    C9_store_effect_order (PyVal.str "foo") (Cache.init (fun i => "k" ++ natRepr i)) (Or.inl rfl)⟩

theorem storeN_cons (v : PyVal) (rest : List PyVal) (s : CacheState) :
    storeN (v :: rest) s =
      ((Cache.store v s).1 :: (storeN rest (Cache.store v s).2.1).1,
       (storeN rest (Cache.store v s).2.1).2) := rfl

theorem storeN_spec (vs : List PyVal) :
    ∀ (s : CacheState) (c : Int),
    CtrIs s.redis "Cache.store" c →
    (∀ j, j < vs.length → s.supply (s.nextIdx + j) ≠ "Cache.store") →
    CtrIs (storeN vs s).2.redis "Cache.store" (c + vs.length) ∧
    (storeN vs s).2.redis.lists "Cache.store:inputs" =
      s.redis.lists "Cache.store:inputs" ++ vs.map strArgs ∧
    (storeN vs s).2.redis.lists "Cache.store:outputs" =
      s.redis.lists "Cache.store:outputs" ++ (storeN vs s).1 ∧
    (storeN vs s).1 = (List.range vs.length).map (fun j => s.supply (s.nextIdx + j)) ∧
    (storeN vs s).2.supply = s.supply ∧
    (storeN vs s).2.nextIdx = s.nextIdx + vs.length := by
  induction vs with
  | nil =>
    intro s c hc hf
    refine ⟨by simpa using hc, by simp [storeN], by simp [storeN], by simp [storeN],
      rfl, by simp [storeN]⟩
  | cons v rest ih =>
    intro s c hc hf
    have hk0 : s.supply s.nextIdx ≠ "Cache.store" := by
      have := hf 0 (by simp)
      simpa using this
    have hctr1 : CtrIs (Cache.store v s).2.1.redis "Cache.store" (c + 1) :=
      Or.inl (store_kv_counter v s c hc hk0)
    have hf1 : ∀ j, j < rest.length →
        (Cache.store v s).2.1.supply ((Cache.store v s).2.1.nextIdx + j) ≠ "Cache.store" := by
      intro j hj
      rw [store_supply, store_nextIdx]
      have hmem := hf (j + 1) (by simp; omega)
      have heq : s.nextIdx + 1 + j = s.nextIdx + (j + 1) := by omega
      rw [heq]
      exact hmem
    obtain ⟨ih1, ih2, ih3, ih4, ih5, ih6⟩ := ih (Cache.store v s).2.1 (c + 1) hctr1 hf1
    refine ⟨?_, ?_, ?_, ?_, ?_, ?_⟩
    · rw [storeN_cons]
      have hlen : (c + ((v :: rest).length : Int)) = (c + 1) + rest.length := by
        simp
        ring
      rw [hlen]
      exact ih1
    · rw [storeN_cons]
      simp only []
      rw [ih2, store_lists_in]
      simp [List.append_assoc]
    · rw [storeN_cons]
      simp only []
      rw [ih3, store_lists_out, store_result]
      simp [List.append_assoc]
    · rw [storeN_cons]
      simp only []
      rw [ih4, store_supply, store_nextIdx, store_result, List.length_cons,
        List.range_succ_eq_map, List.map_cons, List.map_map]
      congr 1
      apply List.map_congr_left
      intro j _
      simp [Function.comp]
      congr 1
      omega
    · rw [storeN_cons]
      exact ih5.trans (store_supply v s)
    · rw [storeN_cons]
      rw [ih6, store_nextIdx, List.length_cons]
      omega

/-- C4: from a fresh facade, `n` successive successful `store` calls
leave the `store` counter reading `n` and both history lists of length
exactly `n`, the inputs being the textual argument tuples and the
outputs the returned keys, in call order. -/
theorem C4_store_counter_history (f : Nat → String) (vs : List PyVal)
    (hf : ∀ i, i < vs.length →
      f i ≠ "Cache.store" ∧ f i ≠ "Cache.store:inputs" ∧ f i ≠ "Cache.store:outputs") :
    CtrIs (storeN vs (Cache.init f)).2.redis "Cache.store" vs.length ∧
    (storeN vs (Cache.init f)).2.redis.lists "Cache.store:inputs" = vs.map strArgs ∧
    (storeN vs (Cache.init f)).2.redis.lists "Cache.store:outputs" =
      (storeN vs (Cache.init f)).1 ∧
    (storeN vs (Cache.init f)).1 = (List.range vs.length).map f ∧
    ((storeN vs (Cache.init f)).2.redis.lists "Cache.store:inputs").length = vs.length ∧
    ((storeN vs (Cache.init f)).2.redis.lists "Cache.store:outputs").length = vs.length := by
  have hc0 : CtrIs (Cache.init f).redis "Cache.store" 0 := Or.inr ⟨rfl, rfl⟩
  have hfr : ∀ j, j < vs.length →
      (Cache.init f).supply ((Cache.init f).nextIdx + j) ≠ "Cache.store" := by
    intro j hj
    simpa [Cache.init] using (hf j hj).1
  obtain ⟨h1, h2, h3, h4, h5, h6⟩ := storeN_spec vs (Cache.init f) 0 hc0 hfr
  have hkeys : (storeN vs (Cache.init f)).1 = (List.range vs.length).map f := by
    rw [h4]
    apply List.map_congr_left
    intro j _
    simp [Cache.init]
  refine ⟨by simpa using h1, by simpa [Cache.init, RedisState.empty, rlrangeAll] using h2,
    by simpa [Cache.init, RedisState.empty] using h3, hkeys, ?_, ?_⟩
  · have := congrArg List.length h2
    simpa [Cache.init, RedisState.empty] using this
  · have := congrArg List.length h3
    rw [hkeys] at this
    simpa [Cache.init, RedisState.empty] using this

/-- Witness for C4: two concrete stores from a fresh facade. -/
theorem C4_store_counter_history_witness :
    (∀ i, i < ([PyVal.str "foo", PyVal.int 5] : List PyVal).length →
      ("k" ++ natRepr i) ≠ "Cache.store" ∧ ("k" ++ natRepr i) ≠ "Cache.store:inputs" ∧
      ("k" ++ natRepr i) ≠ "Cache.store:outputs") ∧
    (CtrIs (storeN [PyVal.str "foo", PyVal.int 5]
        (Cache.init (fun i => "k" ++ natRepr i))).2.redis "Cache.store"
        ([PyVal.str "foo", PyVal.int 5] : List PyVal).length ∧
     (storeN [PyVal.str "foo", PyVal.int 5]
        (Cache.init (fun i => "k" ++ natRepr i))).2.redis.lists "Cache.store:inputs" =
        [PyVal.str "foo", PyVal.int 5].map strArgs ∧
     (storeN [PyVal.str "foo", PyVal.int 5]
        (Cache.init (fun i => "k" ++ natRepr i))).2.redis.lists "Cache.store:outputs" =
        (storeN [PyVal.str "foo", PyVal.int 5] (Cache.init (fun i => "k" ++ natRepr i))).1 ∧
     (storeN [PyVal.str "foo", PyVal.int 5]
        (Cache.init (fun i => "k" ++ natRepr i))).1 =
        (List.range ([PyVal.str "foo", PyVal.int 5] : List PyVal).length).map
          (fun i => "k" ++ natRepr i) ∧
     ((storeN [PyVal.str "foo", PyVal.int 5]
        (Cache.init (fun i => "k" ++ natRepr i))).2.redis.lists "Cache.store:inputs").length =
        ([PyVal.str "foo", PyVal.int 5] : List PyVal).length ∧
     ((storeN [PyVal.str "foo", PyVal.int 5]
        (Cache.init (fun i => "k" ++ natRepr i))).2.redis.lists "Cache.store:outputs").length =
        ([PyVal.str "foo", PyVal.int 5] : List PyVal).length) :=
  ⟨by decide, C4_store_counter_history (fun i => "k" ++ natRepr i)
    [PyVal.str "foo", PyVal.int 5] (by decide)⟩

theorem pyParseInt_ne_empty (v : String) (c : Int) (h : pyParseInt v = some c) : v ≠ "" := by
  intro he
  subst he
  rw [show pyParseInt "" = none from rfl] at h
  exact Option.noConfusion h

/-- C7: `replay` reads the operation's counter and both history lists,
renders the was-called-N-times header followed by one line per
`(input, output)` pair zipped in recorded order (so only up to the
shorter length when the lists differ), renders a count of 0 and no
lines when no call was recorded, and leaves the backend state
unchanged. -/
theorem C7_replay (r : RedisState) (qn : String) :
    (∀ v c, rget r qn = some v → pyParseInt v = some c →
      Cache.replay r qn =
        (Except.ok ((qn ++ " was called " ++ intRepr c ++ " times:") ::
          ((rlrangeAll r (qn ++ ":inputs")).zip (rlrangeAll r (qn ++ ":outputs"))).map
            (fun p => qn ++ "(*" ++ p.1 ++ ") -> " ++ p.2)), r)) ∧
    (((rlrangeAll r (qn ++ ":inputs")).zip (rlrangeAll r (qn ++ ":outputs"))).length =
      min (rlrangeAll r (qn ++ ":inputs")).length (rlrangeAll r (qn ++ ":outputs")).length) ∧
    (rget r qn = none → rlrangeAll r (qn ++ ":inputs") = [] →
      rlrangeAll r (qn ++ ":outputs") = [] →
      Cache.replay r qn = (Except.ok [qn ++ " was called " ++ intRepr 0 ++ " times:"], r)) ∧
    (Cache.replay r qn).2 = r := by
  refine ⟨?_, List.length_zip _ _, ?_, ?_⟩
  · intro v c h1 h2
    have hv : v ≠ "" := pyParseInt_ne_empty v c h2
    simp [Cache.replay, h1, hv, h2]
  · intro h1 h2 h3
    simp [Cache.replay, h1, h2, h3]
  · unfold Cache.replay
    simp only []
    split <;> rfl

/-- A concrete backend state for the C7 witness: two recorded calls. -/
def replayDemoState : RedisState :=
  ⟨fun k => if k = "Cache.store" then some "2" else none,
   fun k =>
     if k = "Cache.store:inputs" then ["('foo',)", "('bar',)"]
     else if k = "Cache.store:outputs" then ["k0", "k1"] else []⟩

/-- Witness for C7 at a concrete two-call state. -/
theorem C7_replay_witness :
    (rget replayDemoState "Cache.store" = some "2" ∧ pyParseInt "2" = some 2) ∧
    Cache.replay replayDemoState "Cache.store" =
      (Except.ok ["Cache.store was called 2 times:",
        "Cache.store(*('foo',)) -> k0", "Cache.store(*('bar',)) -> k1"], replayDemoState) :=
  ⟨⟨rfl, by decide⟩, by
    have h := (C7_replay replayDemoState "Cache.store").1 "2" 2 rfl (by decide)
    exact h⟩

/-! Step lemmas for `get_page`. -/

theorem count_ne_cache (u : String) : ("count:" ++ u) ≠ ("cache:" ++ u) := by
  intro h
  have hd := congrArg String.data h
  rw [String.data_append, String.data_append] at hd
  have h1 : "count:".data = ['c', 'o', 'u', 'n', 't', ':'] := rfl
  have h2 : "cache:".data = ['c', 'a', 'c', 'h', 'e', ':'] := rfl
  rw [h1, h2] at hd
  simp at hd

theorem wincr_other (s : WebState) (now : Nat) (k k2 : String) (h : k2 ≠ k) :
    (wincr s now k).kv k2 = s.kv k2 := by
  unfold wincr
  split <;> simp [h]

theorem get_page_hit (fetch : String → Except String String) (now : Nat) (url : String)
    (s : WebState) (v : String) (hv : wget s now ("cache:" ++ url) = some v) (hne : v ≠ "") :
    get_page fetch now url s = (Except.ok v, s, []) := by
  unfold get_page cache_page
  simp [hv, hne]

theorem get_page_miss_ok (fetch : String → Except String String) (now : Nat) (url : String)
    (s : WebState) (body : String)
    (hm : (wget s now ("cache:" ++ url)).getD "" = "") (hb : fetch url = Except.ok body) :
    get_page fetch now url s =
      (Except.ok body,
       wsetex (wincr s now ("count:" ++ url)) now ("cache:" ++ url) 10 body,
       [WebEvent.incrCount ("count:" ++ url), WebEvent.fetchCall url,
        WebEvent.setexCmd ("cache:" ++ url) 10 body]) := by
  unfold get_page cache_page count_url_access
  simp [hm, hb]

theorem get_page_miss_err (fetch : String → Except String String) (now : Nat) (url : String)
    (s : WebState) (e : String)
    (hm : (wget s now ("cache:" ++ url)).getD "" = "") (hb : fetch url = Except.error e) :
    get_page fetch now url s =
      (Except.error e, wincr s now ("count:" ++ url),
       [WebEvent.incrCount ("count:" ++ url), WebEvent.fetchCall url]) := by
  unfold get_page cache_page count_url_access
  simp [hm, hb]

/-- C8: when the fetch fails on a cache miss, the failure propagates to
the caller, the cached entry for the URL is untouched and no `SETEX` is
issued during the call. -/
theorem C8_fetch_failure_no_cache_write (fetch : String → Except String String) (now : Nat)
    (url : String) (s : WebState) (e : String)
    (hm : (wget s now ("cache:" ++ url)).getD "" = "") (hb : fetch url = Except.error e) :
    (get_page fetch now url s).1 = Except.error e ∧
    (get_page fetch now url s).2.1.kv ("cache:" ++ url) = s.kv ("cache:" ++ url) ∧
    (get_page fetch now url s).2.2 =
      [WebEvent.incrCount ("count:" ++ url), WebEvent.fetchCall url] ∧
    (∀ k ttl v, WebEvent.setexCmd k ttl v ∉ (get_page fetch now url s).2.2) := by
  rw [get_page_miss_err fetch now url s e hm hb]
  refine ⟨rfl, ?_, rfl, ?_⟩
  · exact wincr_other s now ("count:" ++ url) ("cache:" ++ url) (Ne.symm (count_ne_cache url))
  · intro k ttl v
    simp

/-- Witness for C8: an erroring fetch against an empty cache. -/
theorem C8_fetch_failure_no_cache_write_witness :
    ((wget WebState.empty 0 ("cache:" ++ "u")).getD "" = "" ∧
      (fun _ : String => (Except.error "boom" : Except String String)) "u" =
        Except.error "boom") ∧
    ((get_page (fun _ => Except.error "boom") 0 "u" WebState.empty).1 =
        Except.error "boom" ∧
      (get_page (fun _ => Except.error "boom") 0 "u" WebState.empty).2.1.kv ("cache:" ++ "u") =
        WebState.empty.kv ("cache:" ++ "u") ∧
      (get_page (fun _ => Except.error "boom") 0 "u" WebState.empty).2.2 =
        [WebEvent.incrCount ("count:" ++ "u"), WebEvent.fetchCall "u"] ∧
      (∀ k ttl v, WebEvent.setexCmd k ttl v ∉
        (get_page (fun _ => Except.error "boom") 0 "u" WebState.empty).2.2)) :=
  ⟨⟨rfl, rfl⟩,
    C8_fetch_failure_no_cache_write (fun _ => Except.error "boom") 0 "u" WebState.empty
      "boom" rfl rfl⟩

/-- C10: an empty cached body that is present and unexpired is treated
as a miss: the fetch runs again and the entry is rewritten with a fresh
expiration. -/
theorem C10_empty_body_is_miss (fetch : String → Except String String) (now : Nat)
    (url : String) (s : WebState) (e : Nat) (body : String)
    (hc : s.kv ("cache:" ++ url) = some ("", some e)) (ht : now < e)
    (hb : fetch url = Except.ok body) :
    (get_page fetch now url s).1 = Except.ok body ∧
    WebEvent.fetchCall url ∈ (get_page fetch now url s).2.2 ∧
    (get_page fetch now url s).2.1.kv ("cache:" ++ url) = some (body, some (now + 10)) := by
  have hm : (wget s now ("cache:" ++ url)).getD "" = "" := by
    unfold wget wentry
    rw [hc]
    simp [ht]
  rw [get_page_miss_ok fetch now url s body hm hb]
  refine ⟨rfl, by simp, ?_⟩
  unfold wsetex
  simp

/-- Witness for C10: an empty body cached until time 10, refetched at
time 5. -/
theorem C10_empty_body_is_miss_witness :
    ((⟨fun k => if k = "cache:" ++ "u" then some ("", some 10) else none⟩ :
        WebState).kv ("cache:" ++ "u") = some ("", some 10) ∧ (5 : Nat) < 10) ∧
    ((get_page (fun _ => Except.ok "x") 5 "u"
        ⟨fun k => if k = "cache:" ++ "u" then some ("", some 10) else none⟩).1 =
        Except.ok "x" ∧
      WebEvent.fetchCall "u" ∈ (get_page (fun _ => Except.ok "x") 5 "u"
        ⟨fun k => if k = "cache:" ++ "u" then some ("", some 10) else none⟩).2.2 ∧
      (get_page (fun _ => Except.ok "x") 5 "u"
        ⟨fun k => if k = "cache:" ++ "u" then some ("", some 10) else none⟩).2.1.kv
        ("cache:" ++ "u") = some ("x", some (5 + 10))) :=
  ⟨⟨by simp, by decide⟩,
    C10_empty_body_is_miss (fun _ => Except.ok "x") 5 "u"
      ⟨fun k => if k = "cache:" ++ "u" then some ("", some 10) else none⟩ 10 "x"
      (by simp) (by decide) rfl⟩

/-- C2 as stated fails on the code: an entry that is present and not
yet expired but holds the empty body does not suppress the underlying
fetch — `get_page` at time 5, with `cache:u` holding `""` until time
10, still performs the fetch. -/
theorem C2_cache_hit_counterexample :
    wget (⟨fun k => if k = "cache:" ++ "u" then some ("", some 10) else none⟩ : WebState) 5
      ("cache:" ++ "u") = some "" ∧
    WebEvent.fetchCall "u" ∈
      (get_page (fun _ => Except.ok "x") 5 "u"
        ⟨fun k => if k = "cache:" ++ "u" then some ("", some 10) else none⟩).2.2 := by
  constructor
  · decide
  · decide

/-- C2 amended: a second call finding the cached entry present,
unexpired and NON-EMPTY returns the cached content without invoking the
fetch; a call finding the entry absent or expired invokes the fetch and
stores its successful result with the configured expiration of 10. -/
theorem C2_cache_expiry_amended (fetch : String → Except String String) (now : Nat)
    (url : String) (s : WebState) :
    (∀ v, wget s now ("cache:" ++ url) = some v → v ≠ "" →
      get_page fetch now url s = (Except.ok v, s, [])) ∧
    (∀ body, wget s now ("cache:" ++ url) = none → fetch url = Except.ok body →
      (get_page fetch now url s).1 = Except.ok body ∧
      WebEvent.fetchCall url ∈ (get_page fetch now url s).2.2 ∧
      (get_page fetch now url s).2.1.kv ("cache:" ++ url) = some (body, some (now + 10))) := by
  constructor
  · intro v hv hne
    exact get_page_hit fetch now url s v hv hne
  · intro body hn hb
    have hm : (wget s now ("cache:" ++ url)).getD "" = "" := by rw [hn]; rfl
    rw [get_page_miss_ok fetch now url s body hm hb]
    refine ⟨rfl, by simp, ?_⟩
    unfold wsetex
    simp

/-- Witness for the amended C2: a non-empty entry cached until time 10
is returned at time 5 without a fetch. -/
theorem C2_cache_expiry_amended_witness :
    (wget (⟨fun k => if k = "cache:" ++ "u" then some ("hello", some 10) else none⟩ : WebState)
      5 ("cache:" ++ "u") = some "hello" ∧ ("hello" : String) ≠ "") ∧
    get_page (fun _ => Except.ok "other") 5 "u"
      (⟨fun k => if k = "cache:" ++ "u" then some ("hello", some 10) else none⟩ : WebState) =
      (Except.ok "hello",
       (⟨fun k => if k = "cache:" ++ "u" then some ("hello", some 10) else none⟩ : WebState),
       []) :=
  ⟨⟨by decide, by decide⟩,
    (C2_cache_expiry_amended (fun _ => Except.ok "other") 5 "u"
      ⟨fun k => if k = "cache:" ++ "u" then some ("hello", some 10) else none⟩).1 "hello"
      (by decide) (by decide)⟩

/-- C1 as stated fails on the code: with a non-empty body, three calls
on one URL at times 0, 5 and 11 under expiration 10 leave the access
counter reading 2, not 3, and the hitting second call performs no
counter increment at all — `@count_url_access` sits inside
`@cache_page`, so counting happens only on a miss. -/
theorem C1_access_count_counterexample :
    (((get_page (fun _ => Except.ok "hello") 11 "http://x/a"
        (get_page (fun _ => Except.ok "hello") 5 "http://x/a"
          (get_page (fun _ => Except.ok "hello") 0 "http://x/a"
            WebState.empty).2.1).2.1).2.1.kv
        ("count:" ++ "http://x/a")).map Prod.fst = some (intRepr 2)) ∧
    ¬(((get_page (fun _ => Except.ok "hello") 11 "http://x/a"
        (get_page (fun _ => Except.ok "hello") 5 "http://x/a"
          (get_page (fun _ => Except.ok "hello") 0 "http://x/a"
            WebState.empty).2.1).2.1).2.1.kv
        ("count:" ++ "http://x/a")).map Prod.fst = some (intRepr 3)) ∧
    WebEvent.incrCount ("count:" ++ "http://x/a") ∉
      (get_page (fun _ => Except.ok "hello") 5 "http://x/a"
        (get_page (fun _ => Except.ok "hello") 0 "http://x/a"
          WebState.empty).2.1).2.2 := by
  refine ⟨by decide, by decide, by decide⟩

/-- C1 amended: the access counter is incremented only on a cache miss
(after the cache lookup), because the counting wrapper sits inside the
caching wrapper; with a non-empty first body, three calls at times 0, 5
and 11 under expiration 10 leave the counter reading 2 — 1 after the
first (miss), still 1 after the second (hit, no fetch, cached body
returned), 2 after the third (expired, refetched). -/
theorem C1_access_count_amended (url body1 body3 : String)
    (f1 f2 f3 : String → Except String String) (s0 : WebState)
    (hcache : s0.kv ("cache:" ++ url) = none)
    (hcount : s0.kv ("count:" ++ url) = none)
    (h1 : f1 url = Except.ok body1) (hb : body1 ≠ "")
    (h3 : f3 url = Except.ok body3) :
    (get_page f1 0 url s0).2.1.kv ("count:" ++ url) = some (intRepr 1, none) ∧
    get_page f2 5 url (get_page f1 0 url s0).2.1 =
      (Except.ok body1, (get_page f1 0 url s0).2.1, []) ∧
    (get_page f3 11 url
      (get_page f2 5 url (get_page f1 0 url s0).2.1).2.1).2.1.kv ("count:" ++ url) =
      some (intRepr 2, none) ∧
    WebEvent.fetchCall url ∈ (get_page f1 0 url s0).2.2 ∧
    WebEvent.fetchCall url ∈
      (get_page f3 11 url
        (get_page f2 5 url (get_page f1 0 url s0).2.1).2.1).2.2 := by
  have hm0 : (wget s0 0 ("cache:" ++ url)).getD "" = "" := by
    unfold wget wentry
    rw [hcache]
    rfl
  have hr1 := get_page_miss_ok f1 0 url s0 body1 hm0 h1
  have hcnt0 : wentry s0 0 ("count:" ++ url) = none := by
    unfold wentry
    rw [hcount]
  have hcnt1 : (get_page f1 0 url s0).2.1.kv ("count:" ++ url) = some (intRepr 1, none) := by
    rw [hr1]
    show (wsetex (wincr s0 0 ("count:" ++ url)) 0 ("cache:" ++ url) 10 body1).kv
      ("count:" ++ url) = _
    unfold wsetex
    simp only [count_ne_cache url, if_neg]
    unfold wincr
    rw [hcnt0]
    simp
  have hwget1 : wget (get_page f1 0 url s0).2.1 5 ("cache:" ++ url) = some body1 := by
    rw [hr1]
    show wget (wsetex (wincr s0 0 ("count:" ++ url)) 0 ("cache:" ++ url) 10 body1) 5
      ("cache:" ++ url) = _
    unfold wget wentry wsetex
    simp
  have hr2 := get_page_hit f2 5 url (get_page f1 0 url s0).2.1 body1 hwget1 hb
  have hm2 : (wget (get_page f1 0 url s0).2.1 11 ("cache:" ++ url)).getD "" = "" := by
    rw [hr1]
    show (wget (wsetex (wincr s0 0 ("count:" ++ url)) 0 ("cache:" ++ url) 10 body1) 11
      ("cache:" ++ url)).getD "" = ""
    unfold wget wentry wsetex
    simp
  have hs2 : (get_page f2 5 url (get_page f1 0 url s0).2.1).2.1 = (get_page f1 0 url s0).2.1 := by
    rw [hr2]
  have hr3 := get_page_miss_ok f3 11 url (get_page f1 0 url s0).2.1 body3 hm2 h3
  have hcnt2 : (get_page f3 11 url (get_page f1 0 url s0).2.1).2.1.kv ("count:" ++ url) =
      some (intRepr 2, none) := by
    rw [hr3]
    show (wsetex (wincr (get_page f1 0 url s0).2.1 11 ("count:" ++ url)) 11
      ("cache:" ++ url) 10 body3).kv ("count:" ++ url) = _
    unfold wsetex
    simp only [count_ne_cache url, if_neg]
    unfold wincr
    have hent : wentry (get_page f1 0 url s0).2.1 11 ("count:" ++ url) =
        some (intRepr 1, none) := by
      unfold wentry
      rw [hcnt1]
    rw [hent]
    simp [redisParseInt_intRepr]
  refine ⟨hcnt1, hr2, ?_, ?_, ?_⟩
  · rw [hs2]
    exact hcnt2
  · rw [hr1]
    simp
  · rw [hs2, hr3]
    simp

/-- Witness for the amended C1: the concrete three-call scenario. -/
theorem C1_access_count_amended_witness :
    (WebState.empty.kv ("cache:" ++ "u") = none ∧
      WebState.empty.kv ("count:" ++ "u") = none ∧
      (fun _ : String => (Except.ok "hello" : Except String String)) "u" =
        Except.ok "hello" ∧ ("hello" : String) ≠ "" ∧
      (fun _ : String => (Except.ok "bye" : Except String String)) "u" = Except.ok "bye") ∧
    ((get_page (fun _ => Except.ok "hello") 0 "u" WebState.empty).2.1.kv ("count:" ++ "u") =
        some (intRepr 1, none) ∧
      get_page (fun _ => Except.ok "also") 5 "u"
          (get_page (fun _ => Except.ok "hello") 0 "u" WebState.empty).2.1 =
        (Except.ok "hello",
          (get_page (fun _ => Except.ok "hello") 0 "u" WebState.empty).2.1, []) ∧
      (get_page (fun _ => Except.ok "bye") 11 "u"
        (get_page (fun _ => Except.ok "also") 5 "u"
          (get_page (fun _ => Except.ok "hello") 0 "u"
            WebState.empty).2.1).2.1).2.1.kv ("count:" ++ "u") = some (intRepr 2, none) ∧
      WebEvent.fetchCall "u" ∈
        (get_page (fun _ => Except.ok "hello") 0 "u" WebState.empty).2.2 ∧
      WebEvent.fetchCall "u" ∈
        (get_page (fun _ => Except.ok "bye") 11 "u"
          (get_page (fun _ => Except.ok "also") 5 "u"
            (get_page (fun _ => Except.ok "hello") 0 "u"
              WebState.empty).2.1).2.1).2.2) :=
  ⟨⟨rfl, rfl, rfl, by decide, rfl⟩,
    C1_access_count_amended "u" "hello" "bye" (fun _ => Except.ok "hello")
      (fun _ => Except.ok "also") (fun _ => Except.ok "bye") WebState.empty
      rfl rfl rfl (by decide) rfl⟩

example : natRepr 0 = "0" := by decide
example : natRepr 123 = "123" := by decide
example : intRepr (-45) = "-45" := by decide
example : redisParseInt "123" = some 123 := by decide
example : redisParseInt "-7" = some (-7) := by decide
example : redisParseInt " 1" = none := by decide
example : redisParseInt "+1" = none := by decide
example : pyParseInt " 42 " = some 42 := by decide
example : pyParseInt "-13" = some (-13) := by decide
example : pyParseInt "1_0" = some 10 := by decide
example : pyParseInt "_1" = none := by decide
example : pyParseInt "1_" = none := by decide
example : pyParseInt "abc" = none := by decide
example : pyParseInt "" = none := by decide
